import Mathlib

/-!
Shallow embedding of the Centipede fuzzing engine core
(`centipede.cc`, `byte_array_mutator.h`) and proofs about it.

Bytes, features and sizes are modelled as `Nat`; byte arrays as `List Nat`.
External callbacks (target execution, filters, hashing) are modelled as
explicit oracle functions threaded through the definitions.
-/

namespace Centipede

/-! ## Peer-shard selection (`Centipede::FuzzingLoop`, centipede.cc:657-665)

    size_t rand = rng_() % (env_.total_shards - 1);
    size_t other_shard_index =
        (env_.my_shard_index + 1 + rand) % env_.total_shards;
-/

/-- The peer shard index picked for a periodic peer load, given the raw RNG
value `r`, as computed in `Centipede::FuzzingLoop`. -/
def chooseOtherShard (myShardIndex totalShards r : Nat) : Nat :=
  (myShardIndex + 1 + r % (totalShards - 1)) % totalShards

/-! ## Mutator size/alignment setters (`byte_array_mutator.h:182-202`)

`max_len_` uses `std::numeric_limits<size_t>::max()` as the "unbounded"
sentinel; we keep the same sentinel value. -/

/-- The `std::numeric_limits<size_t>::max()` sentinel meaning "no max length". -/
def sizeTMax : Nat := 2 ^ 64 - 1

/-- The mutator state relevant to the size setters: `size_alignment_` and
`max_len_` with their default values. -/
structure MutatorSizeState where
  size_alignment : Nat := 1
  max_len : Nat := sizeTMax
  deriving DecidableEq, Repr

/-- `ByteArrayMutator::set_size_alignment`: rejects (returning `false` and
leaving the state unchanged) when `max_len_` is finite and not a multiple of
the requested alignment; otherwise stores the alignment and returns `true`. -/
def set_size_alignment (s : MutatorSizeState) (size_alignment : Nat) :
    Bool × MutatorSizeState :=
  if s.max_len ≠ sizeTMax ∧ s.max_len % size_alignment ≠ 0 then
    (false, s)
  else
    (true, { s with size_alignment := size_alignment })

/-- `ByteArrayMutator::set_max_len`: rejects (returning `false` and leaving the
state unchanged) when the requested max length is finite and not a multiple of
the current alignment; otherwise stores it and returns `true`. -/
def set_max_len (s : MutatorSizeState) (max_len : Nat) :
    Bool × MutatorSizeState :=
  if max_len ≠ sizeTMax ∧ max_len % s.size_alignment ≠ 0 then
    (false, s)
  else
    (true, { s with max_len := max_len })

/-! ## `DictEntry` and its comparator (`byte_array_mutator.h:32-53`)

A `DictEntry` stores up to `kMaxEntrySize = 15` content bytes in a zero-padded
fixed buffer `bytes_[15]`, followed by a `size_` byte.  `operator<` is
`memcmp(this, &other, sizeof(*this)) < 0`, i.e. byte-wise comparison of the
padded buffer followed by the size byte. -/

/-- `DictEntry::kMaxEntrySize`. -/
def kMaxEntrySize : Nat := 15

/-- `memcmp < 0` on two byte buffers of equal length, as a Bool. -/
def memcmpLt : List Nat → List Nat → Bool
  | [], [] => false
  | [], _ :: _ => true
  | _ :: _, [] => false
  | a :: as, b :: bs =>
    if a < b then true else if b < a then false else memcmpLt as bs

/-- The raw byte layout of a `DictEntry` with content `e`: the content bytes,
zero padding up to `kMaxEntrySize`, then the `size_` byte. -/
def dictEntryBytes (e : List Nat) : List Nat :=
  e ++ List.replicate (kMaxEntrySize - e.length) 0 ++ [e.length]

/-- `DictEntry::operator<` applied to entries with contents `x` and `y`. -/
def dictEntryLt (x y : List Nat) : Bool :=
  memcmpLt (dictEntryBytes x) (dictEntryBytes y)

/-- Modelled from the spec: "ordered lexicographically by content, then
length" — `x` precedes `y` iff `x`'s content is lexicographically smaller, or
the contents agree up to the shorter length and `x` is shorter. -/
def specContentLt : List Nat → List Nat → Bool
  | [], [] => false
  | [], _ :: _ => true
  | _ :: _, [] => false
  | a :: as, b :: bs =>
    if a < b then true else if b < a then false else specContentLt as bs

/-! ## Feature set

`FeatureSet` lives in feature_set.h, which is not under src/; its two
operations used by the modelled paths are modelled from the spec (§4.5). -/

/-- Modelled from the spec: `FeatureSet::CountUnseenAndPruneFrequentFeatures`
(feature_set.h is not under src/) — "removes features with frequency ≥
threshold from fv; returns true iff at least one remaining feature has
frequency 0".  Returns the flag and the pruned vector. -/
def countUnseenAndPruneFrequent (freq : Nat → Nat) (threshold : Nat)
    (fv : List Nat) : Bool × List Nat :=
  let pruned := fv.filter (fun f => freq f < threshold)
  (pruned.any (fun f => freq f == 0), pruned)

/-- Modelled from the spec: `FeatureSet::IncrementFrequencies` (feature_set.h
is not under src/) — increments the 8-bit saturating counter of every feature
occurrence in `fv`. -/
def incrementFrequencies (freq : Nat → Nat) (fv : List Nat) : Nat → Nat :=
  fun f => min (freq f + fv.count f) 255

/-! ## PC-pair features (`Centipede::AddPcPairFeatures`, centipede.cc:255-283) -/

/-- The PC-pair candidate features of `pcs` in the order generated by the
quadratic loop of `Centipede::AddPcPairFeatures` (outer index `i`, inner
`j > i`).  `pairFeature` abstracts
`kPCPair.ConvertToMe(ConvertPcPairToNumber(pc1, pc2, num_pcs))`
(feature.h is not under src/). -/
def pcPairCandidates (pairFeature : Nat → Nat → Nat) : List Nat → List Nat
  | [] => []
  | p :: rest => rest.map (pairFeature p) ++ pcPairCandidates pairFeature rest

/-- `Centipede::AddPcPairFeatures`: collect the PC indices of the
8-bit-counter features of `fv` (`pcIndexOf` abstracts the domain test plus
`Convert8bitCounterFeatureToPcIndex`, feature.h not under src/), then append
to `fv` every pair feature whose frequency in the feature set is still zero;
returns the new vector and the number of pairs added. -/
def addPcPairFeatures (freq : Nat → Nat) (pcIndexOf : Nat → Option Nat)
    (pairFeature : Nat → Nat → Nat) (fv : List Nat) : List Nat × Nat :=
  let pcs := fv.filterMap pcIndexOf
  let newPairs := (pcPairCandidates pairFeature pcs).filter (fun f => freq f == 0)
  (fv ++ newPairs, newPairs.length)

/-! ## Engine state and environment -/

/-- A corpus record: input bytes, features, cmp args. -/
structure CorpusRecord where
  data : List Nat
  features : List Nat
  cmp_args : List Nat
  deriving DecidableEq, Repr

/-- The engine state touched by the modelled paths of `Centipede`: the feature
set (`fs_`), the in-memory corpus (`corpus_`; no pruning occurs in the
modelled paths, so active records = all records and `NumActive = NumTotal =
corpus.length`), the contents appended to the shard files (a features-file
record `PackFeaturesAndHash(input, fv)` is modelled as the pair
`(input, fv)`), the run counter, the early-exit flag (`RequestEarlyExit` /
`EarlyExitRequested` in the single-threaded shard), the crash-report counter
and the written crash-reproducer files. -/
structure EngineState where
  freq : Nat → Nat
  corpus : List CorpusRecord
  corpusFileAppends : List (List Nat)
  featuresFileAppends : List (List Nat × List Nat)
  uncondFeaturesFileAppends : List (List Nat × List Nat)
  corpusDirWrites : List (List Nat)
  numRuns : Nat
  earlyExit : Option Nat
  numCrashReports : Nat
  crashFiles : List (List Nat)

/-- A per-binary execution oracle abstracting `CentipedeCallbacks::Execute`:
on a batch it yields success, the per-input `(features, cmp_args)` results and
`num_outputs_read`; `execOne` is the same callback on a single input (only its
success bit is consumed, by the crash reproduction loop). -/
structure BinOracle where
  execBatch : List (List Nat) → Bool × List (List Nat × List Nat) × Nat
  execOne : List Nat → Bool

/-- The environment (`env_`) and external callbacks used by the modelled
paths. -/
structure Env where
  threshold : Nat                      -- env_.feature_frequency_threshold
  usePcPair : Bool                     -- env_.use_pcpair_features
  pcIndexOf : Nat → Option Nat         -- 8-bit-counter domain test + conversion
  pairFeature : Nat → Nat → Nat        -- PC-pair feature construction
  functionFilter : List Nat → Bool     -- function_filter_.filter
  inputFilter : List Nat → Bool        -- Centipede::InputPassesFilter
  exitOnCrash : Bool                   -- env_.exit_on_crash
  maxNumCrashReports : Nat             -- env_.max_num_crash_reports
  corpusDirNonempty : Bool             -- !env_.corpus_dir.empty()
  batchSize : Nat                      -- env_.batch_size
  primary : BinOracle                  -- env_.binary
  extras : List BinOracle              -- env_.extra_binaries

/-! ## Crash reporting (`Centipede::ReportCrash`, centipede.cc:685-751) -/

/-- The order in which `Centipede::ReportCrash` tries inputs: all indices in
their original order, with the suspect index additionally pushed to the front
when it is in range. -/
def crashTryOrder (numInputs suspectInputIdx : Nat) : List Nat :=
  let idxs := List.range numInputs
  if suspectInputIdx < numInputs then suspectInputIdx :: idxs else idxs

/-- The one-by-one reproduction loop of `Centipede::ReportCrash` over a list
of input indices: the first input whose single-input execution fails stops the
loop. -/
def findReproducer (execOne : List Nat → Bool) (inputs : List (List Nat)) :
    List Nat → Option (List Nat)
  | [] => none
  | i :: rest =>
    let oneInput := inputs.getD i []
    if execOne oneInput then findReproducer execOne inputs rest
    else some oneInput

/-- `Centipede::ReportCrash`: returns immediately when the crash-report
counter has reached `max_num_crash_reports`; otherwise increments the counter,
runs inputs one-by-one in `crashTryOrder`, writes the first reproducing input
to `crashes/<hash(input)>` (modelled as appending the raw input to
`crashFiles`) and stops.  The second component is the reproducer found
(`none` corresponds to the "Crash was not observed" log line). -/
def reportCrash (env : Env) (execOne : List Nat → Bool) (s : EngineState)
    (inputs : List (List Nat)) (numOutputsRead : Nat) :
    EngineState × Option (List Nat) :=
  if env.maxNumCrashReports ≤ s.numCrashReports then (s, none)
  else
    let s := { s with numCrashReports := s.numCrashReports + 1 }
    match findReproducer execOne inputs
        (crashTryOrder inputs.length numOutputsRead) with
    | some oneInput =>
      ({ s with crashFiles := s.crashFiles ++ [oneInput] }, some oneInput)
    | none => (s, none)

/-! ## Batch grading (`Centipede::RunBatch`, centipede.cc:285-342) -/

/-- The feature-vector transformation and "gained new coverage" decision of
the grading loop (centipede.cc:311-314): prune frequent features and count
unseen ones, then optionally synthesize PC-pair features. -/
def gradedFeatures (env : Env) (freq : Nat → Nat) (fv : List Nat) :
    Bool × List Nat :=
  let r := countUnseenAndPruneFrequent freq env.threshold fv
  if env.usePcPair then
    let p := addPcPairFeatures freq env.pcIndexOf env.pairFeature r.2
    (r.1 || decide (0 < p.2), p.1)
  else r

/-- Grading of one input in `Centipede::RunBatch` (centipede.cc:309-339).
Returns the input's contribution to `batch_gained_new_coverage` and the new
state.  The three `has*File` flags model the nullability of the three
`BlobFileAppender*` arguments; the function filter is applied to the feature
vector before pruning, exactly as in the source. -/
def gradeOneInput (env : Env)
    (hasCorpusFile hasFeaturesFile hasUncondFile : Bool)
    (s : EngineState) (input fv cmpArgs : List Nat) : Bool × EngineState :=
  let functionFilterPassed := env.functionFilter fv
  let g := gradedFeatures env s.freq fv
  let s :=
    if hasUncondFile then
      { s with uncondFeaturesFileAppends :=
          s.uncondFeaturesFileAppends ++ [(input, g.2)] }
    else s
  if g.1 then
    if !env.inputFilter input then (false, s)
    else
      (true,
        { s with
          freq := incrementFrequencies s.freq g.2
          corpus :=
            if functionFilterPassed then s.corpus ++ [⟨input, g.2, cmpArgs⟩]
            else s.corpus
          corpusFileAppends :=
            if hasCorpusFile then s.corpusFileAppends ++ [input]
            else s.corpusFileAppends
          corpusDirWrites :=
            if env.corpusDirNonempty then s.corpusDirWrites ++ [input]
            else s.corpusDirWrites
          featuresFileAppends :=
            if hasFeaturesFile then s.featuresFileAppends ++ [(input, g.2)]
            else s.featuresFileAppends })
  else (false, s)

/-- The grading loop of `Centipede::RunBatch` over the batch's
`(input, (features, cmp_args))` pairs, accumulating
`batch_gained_new_coverage` and honoring the per-iteration
`EarlyExitRequested()` check. -/
def gradeBatch (env : Env) (hasCorpusFile hasFeaturesFile hasUncondFile : Bool)
    (pairs : List (List Nat × List Nat × List Nat)) (s : EngineState) :
    Bool × EngineState :=
  pairs.foldl
    (fun acc p =>
      if acc.2.earlyExit.isSome then acc
      else
        let r := gradeOneInput env hasCorpusFile hasFeaturesFile hasUncondFile
          acc.2 p.1 p.2.1 p.2.2
        (acc.1 || r.1, r.2))
    (false, s)

/-- The crash-reporting executions at the head of `Centipede::RunBatch`
(`ExecuteAndReportCrash` on the primary binary and on every extra binary):
the state after all executions, with a crash report filed for each failing
one. -/
def runBatchPreState (env : Env) (inputs : List (List Nat)) (s : EngineState) :
    EngineState :=
  let e := env.primary.execBatch inputs
  let s := if e.1 then s
    else (reportCrash env env.primary.execOne s inputs e.2.2).1
  env.extras.foldl
    (fun st b =>
      let eb := b.execBatch inputs
      if eb.1 then st else (reportCrash env b.execOne st inputs eb.2.2).1) s

/-- `Centipede::RunBatch`: execute the primary binary (reporting a crash on
failure), likewise each extra binary, and combine success; if any execution
failed and `exit_on_crash` is set, request early exit with code 1 and return
false before grading; otherwise bump `num_runs_` and grade each input of the
batch (only the primary binary's results are graded). -/
def runBatch (env : Env) (inputs : List (List Nat))
    (hasCorpusFile hasFeaturesFile hasUncondFile : Bool)
    (s : EngineState) : Bool × EngineState :=
  let s := runBatchPreState env inputs s
  let success := (env.primary.execBatch inputs).1
    && env.extras.all (fun b => (b.execBatch inputs).1)
  if !success && env.exitOnCrash then
    (false, { s with earlyExit := some 1 })
  else
    let s := { s with numRuns := s.numRuns + inputs.length }
    gradeBatch env hasCorpusFile hasFeaturesFile hasUncondFile
      (inputs.zip (env.primary.execBatch inputs).2.1) s

/-! ## Shard loading (`Centipede::LoadShard` / `Rerun`, centipede.cc:344-399) -/

/-- The `input_features_callback` of `Centipede::LoadShard` on one shard entry
`(input, features)`: queue feature-less inputs for rerun (when `rerun` is
set); otherwise admit the input iff it still carries an unseen feature. -/
def loadShardEntry (env : Env) (rerun : Bool)
    (acc : EngineState × List (List Nat)) (entry : List Nat × List Nat) :
    EngineState × List (List Nat) :=
  let s := acc.1
  if s.earlyExit.isSome then acc
  else if entry.2.isEmpty then
    (s, if rerun then acc.2 ++ [entry.1] else acc.2)
  else
    let r := countUnseenAndPruneFrequent s.freq env.threshold entry.2
    if r.1 then
      ({ s with
          freq := incrementFrequencies s.freq r.2
          corpus := s.corpus ++ [⟨entry.1, r.2, []⟩] }, acc.2)
    else (s, acc.2)

/-- The loop of `Centipede::Rerun`, which repeatedly takes a batch of up to
`env_.batch_size` inputs from the tail of `to_rerun` and runs it with only an
unconditional features file.  The fuel bounds the loop; `toRerun.length` fuel
suffices whenever `env.batchSize > 0` (the C++ loop diverges for
`batch_size == 0`). -/
def rerunAux (env : Env) : Nat → List (List Nat) → EngineState → EngineState
  | 0, _, s => s
  | fuel + 1, toRerun, s =>
    if toRerun.isEmpty then s
    else if s.earlyExit.isSome then s
    else
      let bs := min toRerun.length env.batchSize
      let batch := toRerun.drop (toRerun.length - bs)
      let rest := toRerun.take (toRerun.length - bs)
      let r := runBatch env batch false false true s
      rerunAux env fuel rest r.2

/-- `Centipede::Rerun`. -/
def rerun (env : Env) (toRerun : List (List Nat)) (s : EngineState) :
    EngineState :=
  if toRerun.isEmpty then s else rerunAux env toRerun.length toRerun s

/-- `Centipede::LoadShard`: stream the shard's `(input, features)` entries
through the callback, then rerun the queued feature-less inputs. -/
def loadShard (env : Env) (entries : List (List Nat × List Nat))
    (rerunFlag : Bool) (s : EngineState) : EngineState :=
  let r := entries.foldl (loadShardEntry env rerunFlag) (s, [])
  rerun env r.2 r.1

/-- `Centipede::MergeFromOtherCorpus` (centipede.cc:527-545): load the other
workdir's shard with rerun enabled, check that the corpus did not shrink
(`CHECK_GE`), and append the newly added inputs to the own corpus file.  The
Bool records whether the `CHECK_GE` assertion holds. -/
def mergeFromOtherCorpus (env : Env) (entries : List (List Nat × List Nat))
    (s : EngineState) : EngineState × Bool :=
  let initialCorpusSize := s.corpus.length
  let s' := loadShard env entries true s
  let newCorpusSize := s'.corpus.length
  let newInputs := (s'.corpus.drop initialCorpusSize).map (fun r => r.data)
  ({ s' with corpusFileAppends := s'.corpusFileAppends ++ newInputs },
    decide (initialCorpusSize ≤ newCorpusSize))

/-- The corpus-seeding step of `Centipede::FuzzingLoop` (centipede.cc:587-589):
if the corpus has no records at all, add the dummy valid input with empty
features and empty cmp args. -/
def seedWithDummyValidInput (dummyValidInput : List Nat) (s : EngineState) :
    EngineState :=
  if s.corpus.length == 0 then
    { s with corpus := s.corpus ++ [⟨dummyValidInput, [], []⟩] }
  else s

/-! ## Mutation dispatch (`ByteArrayMutator::ApplyOneOf`,
byte_array_mutator.h:209-218) -/

/-- A mutation primitive (`ByteArrayMutator::Fn`): mutates the data and
reports whether a mutation took place. -/
abbrev MutFn := List Nat → Bool × List Nat

/-- The retry loop of `ByteArrayMutator::ApplyOneOf`; `rng i` is the value of
the `i`-th call to `rng_()` during the round. -/
def applyOneOfAux (fn : List MutFn) (rng : Nat → Nat) :
    Nat → Nat → List Nat → Bool × List Nat
  | _, 0, data => (false, data)
  | i, fuel + 1, data =>
    let mutIdx := rng i % fn.length
    let r := (fn.getD mutIdx (fun d => (false, d))) data
    if r.1 then (true, r.2) else applyOneOfAux fn rng (i + 1) fuel r.2

/-- `ByteArrayMutator::ApplyOneOf`: up to 10 iterations, each drawing
`mut_idx = rng_() % kArraySize` and applying `fn[mut_idx]`; returns true at
the first success and false when all 10 attempts fail.  `knobs` is the
mutator's `knobs_` member: the loop never consults it. -/
def applyOneOf (knobs : List Nat) (fn : List MutFn) (rng : Nat → Nat)
    (data : List Nat) : Bool × List Nat :=
  applyOneOfAux fn rng 0 10 data

/-- Helper for `knobsWeightedIndex`: walk the cumulative weights. -/
def knobsWalk : List Nat → Nat → Nat → Nat
  | [], _, i => i
  | w :: ws, v, i => if v < w then i else knobsWalk ws (v - w) (i + 1)

/-- Modelled from the spec: a knobs-weighted draw of a primitive index
("draws a primitive index according to knobs-weighted probabilities") — the
RNG value is reduced modulo the total weight and the index found by walking
the cumulative weights, so an index with weight 0 is never chosen while some
weight is positive. -/
def knobsWeightedIndex (knobs : List Nat) (r : Nat) : Nat :=
  knobsWalk knobs (r % knobs.sum) 0

/-- A run of crash-report invocations: each event carries the single-input
execution oracle of the binary being reported, the batch inputs and
`num_outputs_read`. -/
def reportCrashRun (env : Env)
    (events : List ((List Nat → Bool) × List (List Nat) × Nat))
    (s : EngineState) : EngineState :=
  events.foldl (fun st ev => (reportCrash env ev.1 st ev.2.1 ev.2.2).1) s

/-- `t` agrees with `s` on every grading-relevant component (everything except
the crash-report counter and the crash files). -/
def GradingFrame (s t : EngineState) : Prop :=
  t.freq = s.freq ∧ t.corpus = s.corpus ∧
    t.corpusFileAppends = s.corpusFileAppends ∧
    t.featuresFileAppends = s.featuresFileAppends ∧
    t.uncondFeaturesFileAppends = s.uncondFeaturesFileAppends ∧
    t.corpusDirWrites = s.corpusDirWrites ∧
    t.numRuns = s.numRuns ∧ t.earlyExit = s.earlyExit

/-- `t`'s corpus extends `s`'s corpus: records are only ever appended. -/
def corpusGrows (s t : EngineState) : Prop :=
  ∃ l, t.corpus = s.corpus ++ l

/-- A concrete initial engine state: empty feature set, empty corpus, empty
files, no early exit, no crash reports. -/
def initEngineState : EngineState :=
  ⟨fun _ => 0, [], [], [], [], [], 0, none, 0, []⟩

/-- A sample environment whose function filter rejects everything while the
input filter accepts everything; no PC-pair features, threshold 1. -/
def sampleEnvNoFF : Env :=
  ⟨1, false, fun _ => none, fun _ _ => 0, fun _ => false, fun _ => true,
    false, 10, true, 2, ⟨fun inputs => (true, inputs.map fun _ => ([], []), 0),
      fun _ => true⟩, []⟩

/-- A sample environment with `exit_on_crash` set and a primary binary whose
batch execution always fails; the one-by-one rerun fails exactly on the input
`[2]`. -/
def sampleEnvCrash : Env :=
  ⟨1, false, fun _ => none, fun _ _ => 0, fun _ => true, fun _ => true,
    true, 5, false, 2, ⟨fun inputs => (false, inputs.map fun _ => ([], []), 1),
      fun x => !(x == [2])⟩, []⟩

end Centipede

namespace Centipede

/-- Comparing two buffers that differ only in their final byte compares those
final bytes. -/
theorem memcmpLt_append_last (l : List Nat) (d d' : Nat) :
    memcmpLt (l ++ [d]) (l ++ [d']) = decide (d < d') := by
  induction l with
  | nil =>
    rcases Nat.lt_trichotomy d d' with h | h | h
    · simp [memcmpLt, h]
    · simp [memcmpLt, h]
    · simp [memcmpLt, h, Nat.lt_asymm h]
  | cons a l ih => simpa [memcmpLt, Nat.lt_irrefl] using ih

/-- An all-zero buffer with a smaller final byte precedes any equal-length
buffer with a larger final byte. -/
theorem memcmpLt_replicate_lt (bs : List Nat) (k d d' : Nat)
    (hlen : bs.length ≤ k) (hdd : d < d') :
    memcmpLt (List.replicate k 0 ++ [d])
        (bs ++ List.replicate (k - bs.length) 0 ++ [d']) = true := by
  induction bs generalizing k with
  | nil => simp [memcmpLt_append_last, hdd]
  | cons b bs ih =>
    match k with
    | k + 1 =>
      simp only [List.length_cons] at hlen
      have h1 : List.replicate (k + 1) 0 ++ [d]
          = 0 :: (List.replicate k 0 ++ [d]) := by
        simp [List.replicate_succ]
      have h2 : (b :: bs) ++ List.replicate (k + 1 - (b :: bs).length) 0 ++ [d']
          = b :: (bs ++ List.replicate (k - bs.length) 0 ++ [d']) := by
        simp [List.length_cons, Nat.succ_sub_succ]
      rw [h1, h2]
      match b with
      | 0 => simpa [memcmpLt] using ih k (by omega)
      | b + 1 => simp [memcmpLt]

/-- A buffer with a larger-or-equal final byte never precedes the all-zero
buffer of the same length. -/
theorem memcmpLt_replicate_ge (bs : List Nat) (k d d' : Nat)
    (hlen : bs.length ≤ k) (hdd : d' ≤ d) :
    memcmpLt (bs ++ List.replicate (k - bs.length) 0 ++ [d])
        (List.replicate k 0 ++ [d']) = false := by
  induction bs generalizing k with
  | nil => simp [memcmpLt_append_last, Nat.not_lt.mpr hdd]
  | cons b bs ih =>
    match k with
    | k + 1 =>
      simp only [List.length_cons] at hlen
      have h1 : List.replicate (k + 1) 0 ++ [d']
          = 0 :: (List.replicate k 0 ++ [d']) := by
        simp [List.replicate_succ]
      have h2 : (b :: bs) ++ List.replicate (k + 1 - (b :: bs).length) 0 ++ [d]
          = b :: (bs ++ List.replicate (k - bs.length) 0 ++ [d]) := by
        simp [List.length_cons, Nat.succ_sub_succ]
      rw [h1, h2]
      match b with
      | 0 => simpa [memcmpLt] using ih k (by omega)
      | b + 1 => simp [memcmpLt]

/-- Key lemma for C9, generalized over the buffer size `k` and a common size
offset `d`: the padded-buffer-then-size comparison agrees with lexicographic
content order followed by length. -/
theorem memcmp_padded_eq_specContentLt (x : List Nat) :
    ∀ (y : List Nat) (k d : Nat), x.length ≤ k → y.length ≤ k →
    memcmpLt (x ++ List.replicate (k - x.length) 0 ++ [x.length + d])
        (y ++ List.replicate (k - y.length) 0 ++ [y.length + d])
      = specContentLt x y := by
  induction x with
  | nil =>
    intro y k d _ hy
    match y with
    | [] => simp [memcmpLt_append_last, specContentLt]
    | b :: bs =>
      have := memcmpLt_replicate_lt (b :: bs) k d ((b :: bs).length + d)
        hy (by simp only [List.length_cons]; omega)
      simpa [specContentLt] using this
  | cons a as ih =>
    intro y k d hx hy
    match y with
    | [] =>
      have := memcmpLt_replicate_ge (a :: as) k ((a :: as).length + d) d
        hx (Nat.le_add_left d _)
      simpa [specContentLt] using this
    | b :: bs =>
      match k with
      | k + 1 =>
        simp only [List.length_cons] at hx hy
        have h1 : (a :: as) ++ List.replicate (k + 1 - (a :: as).length) 0
              ++ [(a :: as).length + d]
            = a :: (as ++ List.replicate (k - as.length) 0
              ++ [as.length + (d + 1)]) := by
          simp [List.length_cons, Nat.succ_sub_succ]
          omega
        have h2 : (b :: bs) ++ List.replicate (k + 1 - (b :: bs).length) 0
              ++ [(b :: bs).length + d]
            = b :: (bs ++ List.replicate (k - bs.length) 0
              ++ [bs.length + (d + 1)]) := by
          simp [List.length_cons, Nat.succ_sub_succ]
          omega
        rw [h1, h2]
        by_cases hab : a < b
        · simp [memcmpLt, specContentLt, hab]
        · by_cases hba : b < a
          · simp [memcmpLt, specContentLt, hab, hba]
          · simp only [memcmpLt, specContentLt, if_neg hab, if_neg hba]
            exact ih bs k (d + 1) (by omega) (by omega)

/-- C3 helper: adding `1 + r % (n-1)` to `my` can never be a multiple of `n`,
so the sum is never congruent to `my` modulo `n`. -/
theorem chooseOtherShard_ne (totalShards myShardIndex r : Nat)
    (hN : 1 < totalShards) (hmy : myShardIndex < totalShards) :
    chooseOtherShard myShardIndex totalShards r ≠ myShardIndex := by
  intro h
  unfold chooseOtherShard at h
  have hclt : r % (totalShards - 1) < totalShards - 1 := Nat.mod_lt r (by omega)
  rw [Nat.add_assoc] at h
  -- `my + (1 + c) ≡ my [MOD n]` forces `n ∣ 1 + c`, impossible for `1 + c < n`.
  have hmod : myShardIndex % totalShards
      = (myShardIndex + (1 + r % (totalShards - 1))) % totalShards := by
    rw [h, Nat.mod_eq_of_lt hmy]
  have hdvd : totalShards ∣ myShardIndex + (1 + r % (totalShards - 1))
      - myShardIndex :=
    (Nat.modEq_iff_dvd' (Nat.le_add_right _ _)).mp hmod
  rw [Nat.add_sub_cancel_left] at hdvd
  have := Nat.le_of_dvd (by omega) hdvd
  omega

/-- If the count-unseen flag is set, some feature of the pruned vector has
frequency zero. -/
theorem countUnseen_exists_unseen (freq : Nat → Nat) (threshold : Nat)
    (fv : List Nat)
    (h : (countUnseenAndPruneFrequent freq threshold fv).1 = true) :
    ∃ f ∈ (countUnseenAndPruneFrequent freq threshold fv).2, freq f = 0 := by
  simp only [countUnseenAndPruneFrequent, List.any_eq_true, beq_iff_eq] at h ⊢
  exact h

/-- Every feature appended by `addPcPairFeatures` beyond the incoming vector
has frequency zero, and the reported count is the number appended. -/
theorem addPcPairFeatures_appends_unseen (freq : Nat → Nat)
    (pcIndexOf : Nat → Option Nat) (pairFeature : Nat → Nat → Nat)
    (fv : List Nat) :
    ∃ newPairs,
      (addPcPairFeatures freq pcIndexOf pairFeature fv).1 = fv ++ newPairs ∧
        (addPcPairFeatures freq pcIndexOf pairFeature fv).2 = newPairs.length ∧
        ∀ f ∈ newPairs, freq f = 0 := by
  refine ⟨_, rfl, rfl, ?_⟩
  intro f hf
  simp only [List.mem_filter, beq_iff_eq] at hf
  exact hf.2

/-- If grading decides an input gained new coverage, its final feature vector
contains a feature unseen in the pre-state feature set. -/
theorem gradedFeatures_gained_unseen (env : Env) (freq : Nat → Nat)
    (fv : List Nat) (h : (gradedFeatures env freq fv).1 = true) :
    ∃ f ∈ (gradedFeatures env freq fv).2, freq f = 0 := by
  obtain ⟨newPairs, h1, h2, h3⟩ := addPcPairFeatures_appends_unseen freq
    env.pcIndexOf env.pairFeature
    (countUnseenAndPruneFrequent freq env.threshold fv).2
  cases hp : env.usePcPair with
  | false =>
    simp only [gradedFeatures, hp, Bool.false_eq_true, if_false] at h ⊢
    exact countUnseen_exists_unseen freq env.threshold fv h
  | true =>
    simp only [gradedFeatures, hp, if_true] at h ⊢
    rcases Bool.or_eq_true_iff.mp h with hl | hr
    · obtain ⟨f, hf, h0⟩ := countUnseen_exists_unseen freq env.threshold fv hl
      exact ⟨f, by rw [h1]; exact List.mem_append_left _ hf, h0⟩
    · have hpos := of_decide_eq_true hr
      rw [h2] at hpos
      obtain ⟨f, hf⟩ := List.exists_mem_of_ne_nil _
        (List.ne_nil_of_length_pos hpos)
      exact ⟨f, by rw [h1]; exact List.mem_append_right _ hf, h3 f hf⟩

/-- The reproduction loop equals a first-match search over the inputs taken
in `crashTryOrder`. -/
theorem findReproducer_eq_find (execOne : List Nat → Bool)
    (inputs : List (List Nat)) (l : List Nat) :
    findReproducer execOne inputs l
      = (l.map fun i => inputs.getD i []).find? fun x => ! execOne x := by
  induction l with
  | nil => rfl
  | cons i l ih =>
    by_cases h : execOne (inputs.getD i []) = true
    · rw [findReproducer, List.map_cons,
        List.find?_cons_of_neg _ (by simpa using h), if_pos h, ih]
    · rw [findReproducer, List.map_cons,
        List.find?_cons_of_pos _ (by simpa using h), if_neg h]

/-- `ReportCrash` past the cap is a no-op. -/
theorem reportCrash_suppressed (env : Env) (execOne : List Nat → Bool)
    (s : EngineState) (inputs : List (List Nat)) (k : Nat)
    (h : env.maxNumCrashReports ≤ s.numCrashReports) :
    reportCrash env execOne s inputs k = (s, none) := by
  unfold reportCrash
  rw [if_pos h]

/-- `ReportCrash` below the cap: reports (bumping the counter), returns the
reproducer found by the one-by-one loop and writes exactly that file. -/
theorem reportCrash_active (env : Env) (execOne : List Nat → Bool)
    (s : EngineState) (inputs : List (List Nat)) (k : Nat)
    (h : s.numCrashReports < env.maxNumCrashReports) :
    (reportCrash env execOne s inputs k).2
        = findReproducer execOne inputs (crashTryOrder inputs.length k) ∧
      (reportCrash env execOne s inputs k).1.crashFiles
        = s.crashFiles
          ++ (findReproducer execOne inputs
              (crashTryOrder inputs.length k)).toList ∧
      (reportCrash env execOne s inputs k).1.numCrashReports
        = s.numCrashReports + 1 := by
  unfold reportCrash
  rw [if_neg (by omega)]
  cases hf : findReproducer execOne inputs (crashTryOrder inputs.length k) <;>
    simp [hf]

/-- One `ReportCrash` invocation keeps the counter within the cap. -/
theorem reportCrash_counter_le (env : Env) (execOne : List Nat → Bool)
    (s : EngineState) (inputs : List (List Nat)) (k : Nat)
    (h : s.numCrashReports ≤ env.maxNumCrashReports) :
    (reportCrash env execOne s inputs k).1.numCrashReports
      ≤ env.maxNumCrashReports := by
  by_cases hc : env.maxNumCrashReports ≤ s.numCrashReports
  · rw [reportCrash_suppressed env execOne s inputs k hc]
    exact h
  · have := (reportCrash_active env execOne s inputs k (by omega)).2.2
    omega

/-- Any run of `ReportCrash` invocations keeps the counter within the cap. -/
theorem reportCrashRun_counter_le (env : Env)
    (events : List ((List Nat → Bool) × List (List Nat) × Nat)) :
    ∀ s : EngineState, s.numCrashReports ≤ env.maxNumCrashReports →
      (reportCrashRun env events s).numCrashReports
        ≤ env.maxNumCrashReports := by
  induction events with
  | nil => intro s h; exact h
  | cons ev evs ih =>
    intro s h
    have h' := reportCrash_counter_le env ev.1 s ev.2.1 ev.2.2 h
    simpa [reportCrashRun] using ih _ h'

/-- `GradingFrame` is reflexive. -/
theorem gradingFrame_refl (s : EngineState) : GradingFrame s s :=
  ⟨rfl, rfl, rfl, rfl, rfl, rfl, rfl, rfl⟩

/-- `GradingFrame` is transitive. -/
theorem gradingFrame_trans {s t u : EngineState}
    (h1 : GradingFrame s t) (h2 : GradingFrame t u) : GradingFrame s u := by
  obtain ⟨a1, a2, a3, a4, a5, a6, a7, a8⟩ := h1
  obtain ⟨b1, b2, b3, b4, b5, b6, b7, b8⟩ := h2
  exact ⟨b1.trans a1, b2.trans a2, b3.trans a3, b4.trans a4, b5.trans a5,
    b6.trans a6, b7.trans a7, b8.trans a8⟩

/-- `ReportCrash` touches only the crash-report counter and crash files. -/
theorem reportCrash_gradingFrame (env : Env) (execOne : List Nat → Bool)
    (s : EngineState) (inputs : List (List Nat)) (k : Nat) :
    GradingFrame s (reportCrash env execOne s inputs k).1 := by
  unfold reportCrash
  split
  · exact gradingFrame_refl s
  · split <;> exact ⟨rfl, rfl, rfl, rfl, rfl, rfl, rfl, rfl⟩

/-- The crash-reporting executions at the head of `RunBatch` leave all
grading-relevant state intact. -/
theorem runBatchPreState_gradingFrame (env : Env) (inputs : List (List Nat))
    (s : EngineState) : GradingFrame s (runBatchPreState env inputs s) := by
  unfold runBatchPreState
  have hstep : ∀ (extras : List BinOracle) (t : EngineState),
      GradingFrame t (extras.foldl
        (fun st b =>
          let eb := b.execBatch inputs
          if eb.1 then st else (reportCrash env b.execOne st inputs eb.2.2).1)
        t) := by
    intro extras
    induction extras with
    | nil => intro t; exact gradingFrame_refl t
    | cons b rest ih =>
      intro t
      rw [List.foldl_cons]
      refine gradingFrame_trans ?_ (ih _)
      dsimp only
      split
      · exact gradingFrame_refl t
      · exact reportCrash_gradingFrame env b.execOne t inputs _
  refine gradingFrame_trans ?_ (hstep env.extras _)
  split
  · exact gradingFrame_refl s
  · exact reportCrash_gradingFrame env env.primary.execOne s inputs _

/-- A closed-form characterization of `gradeOneInput`: the returned flag is
"gained new coverage and passed the input filter", and each state component is
updated under its own guard. -/
theorem gradeOneInput_fields (env : Env) (hc hf hu : Bool) (s : EngineState)
    (input fv cmpArgs : List Nat) :
    gradeOneInput env hc hf hu s input fv cmpArgs
      = ((gradedFeatures env s.freq fv).1 && env.inputFilter input,
         { s with
           freq :=
             if (gradedFeatures env s.freq fv).1 && env.inputFilter input then
               incrementFrequencies s.freq (gradedFeatures env s.freq fv).2
             else s.freq
           corpus :=
             if (gradedFeatures env s.freq fv).1 && env.inputFilter input
                 && env.functionFilter fv then
               s.corpus ++ [⟨input, (gradedFeatures env s.freq fv).2, cmpArgs⟩]
             else s.corpus
           corpusFileAppends :=
             if (gradedFeatures env s.freq fv).1 && env.inputFilter input
                 && hc then
               s.corpusFileAppends ++ [input]
             else s.corpusFileAppends
           featuresFileAppends :=
             if (gradedFeatures env s.freq fv).1 && env.inputFilter input
                 && hf then
               s.featuresFileAppends ++ [(input, (gradedFeatures env s.freq fv).2)]
             else s.featuresFileAppends
           uncondFeaturesFileAppends :=
             if hu then
               s.uncondFeaturesFileAppends
                 ++ [(input, (gradedFeatures env s.freq fv).2)]
             else s.uncondFeaturesFileAppends
           corpusDirWrites :=
             if (gradedFeatures env s.freq fv).1 && env.inputFilter input
                 && env.corpusDirNonempty then
               s.corpusDirWrites ++ [input]
             else s.corpusDirWrites }) := by
  unfold gradeOneInput
  cases hu <;> cases hg : (gradedFeatures env s.freq fv).1 <;>
    cases hif : env.inputFilter input <;> cases hff : env.functionFilter fv <;>
    simp [hg, hif, hff]

/-- `corpusGrows` is reflexive. -/
theorem corpusGrows_refl (s : EngineState) : corpusGrows s s :=
  ⟨[], by simp⟩

/-- `corpusGrows` is transitive. -/
theorem corpusGrows_trans {s t u : EngineState}
    (h1 : corpusGrows s t) (h2 : corpusGrows t u) : corpusGrows s u := by
  obtain ⟨l1, e1⟩ := h1
  obtain ⟨l2, e2⟩ := h2
  exact ⟨l1 ++ l2, by rw [e2, e1, List.append_assoc]⟩

/-- Grading one input only appends to the corpus. -/
theorem gradeOneInput_corpusGrows (env : Env) (hc hf hu : Bool)
    (s : EngineState) (input fv cmpArgs : List Nat) :
    corpusGrows s (gradeOneInput env hc hf hu s input fv cmpArgs).2 := by
  rw [gradeOneInput_fields]
  by_cases hcond : ((gradedFeatures env s.freq fv).1 && env.inputFilter input
      && env.functionFilter fv) = true
  · exact ⟨[⟨input, (gradedFeatures env s.freq fv).2, cmpArgs⟩],
      by simp [hcond]⟩
  · exact ⟨[], by simp [hcond]⟩

/-- The grading fold of `RunBatch` only appends to the corpus. -/
theorem gradeBatchFold_corpusGrows (env : Env) (hc hf hu : Bool) :
    ∀ (pairs : List (List Nat × List Nat × List Nat))
      (acc : Bool × EngineState),
      corpusGrows acc.2 ((pairs.foldl
        (fun acc p =>
          if acc.2.earlyExit.isSome then acc
          else
            let r := gradeOneInput env hc hf hu acc.2 p.1 p.2.1 p.2.2
            (acc.1 || r.1, r.2)) acc)).2 := by
  intro pairs
  induction pairs with
  | nil => exact fun acc => corpusGrows_refl acc.2
  | cons p rest ih =>
    intro acc
    rw [List.foldl_cons]
    refine corpusGrows_trans ?_ (ih _)
    dsimp only
    split
    · exact corpusGrows_refl acc.2
    · exact gradeOneInput_corpusGrows env hc hf hu acc.2 p.1 p.2.1 p.2.2

/-- `gradeBatch` only appends to the corpus. -/
theorem gradeBatch_corpusGrows (env : Env) (hc hf hu : Bool)
    (pairs : List (List Nat × List Nat × List Nat)) (s : EngineState) :
    corpusGrows s (gradeBatch env hc hf hu pairs s).2 :=
  gradeBatchFold_corpusGrows env hc hf hu pairs (false, s)

/-- `RunBatch` only appends to the corpus. -/
theorem runBatch_corpusGrows (env : Env) (inputs : List (List Nat))
    (hc hf hu : Bool) (s : EngineState) :
    corpusGrows s (runBatch env inputs hc hf hu s).2 := by
  obtain ⟨l0, hl0⟩ :
      corpusGrows s (runBatchPreState env inputs s) :=
    ⟨[], by rw [(runBatchPreState_gradingFrame env inputs s).2.1]; simp⟩
  unfold runBatch
  dsimp only
  split
  · exact ⟨l0, hl0⟩
  · refine corpusGrows_trans ?_
      (gradeBatch_corpusGrows env hc hf hu
        (inputs.zip (env.primary.execBatch inputs).2.1)
        { runBatchPreState env inputs s with
          numRuns := (runBatchPreState env inputs s).numRuns + inputs.length })
    exact ⟨l0, hl0⟩

/-- The `Rerun` loop only appends to the corpus. -/
theorem rerunAux_corpusGrows (env : Env) :
    ∀ (fuel : Nat) (toRerun : List (List Nat)) (s : EngineState),
      corpusGrows s (rerunAux env fuel toRerun s) := by
  intro fuel
  induction fuel with
  | zero => intro toRerun s; exact corpusGrows_refl s
  | succ fuel ih =>
    intro toRerun s
    rw [rerunAux]
    split
    · exact corpusGrows_refl s
    · split
      · exact corpusGrows_refl s
      · exact corpusGrows_trans
          (runBatch_corpusGrows env _ false false true s) (ih _ _)

/-- `Rerun` only appends to the corpus. -/
theorem rerun_corpusGrows (env : Env) (toRerun : List (List Nat))
    (s : EngineState) : corpusGrows s (rerun env toRerun s) := by
  unfold rerun
  split
  · exact corpusGrows_refl s
  · exact rerunAux_corpusGrows env _ _ s

/-- One shard-load callback step only appends to the corpus. -/
theorem loadShardEntry_corpusGrows (env : Env) (rf : Bool)
    (acc : EngineState × List (List Nat)) (entry : List Nat × List Nat) :
    corpusGrows acc.1 (loadShardEntry env rf acc entry).1 := by
  unfold loadShardEntry
  dsimp only
  split
  · exact corpusGrows_refl acc.1
  · split
    · exact corpusGrows_refl acc.1
    · split
      · exact ⟨[⟨entry.1, (countUnseenAndPruneFrequent acc.1.freq
          env.threshold entry.2).2, []⟩], rfl⟩
      · exact corpusGrows_refl acc.1

/-- The shard-load fold only appends to the corpus. -/
theorem loadShardFold_corpusGrows (env : Env) (rf : Bool) :
    ∀ (entries : List (List Nat × List Nat))
      (acc : EngineState × List (List Nat)),
      corpusGrows acc.1 ((entries.foldl (loadShardEntry env rf) acc)).1 := by
  intro entries
  induction entries with
  | nil => exact fun acc => corpusGrows_refl acc.1
  | cons e rest ih =>
    intro acc
    rw [List.foldl_cons]
    exact corpusGrows_trans (loadShardEntry_corpusGrows env rf acc e) (ih _)

/-- `LoadShard` only appends to the corpus. -/
theorem loadShard_corpusGrows (env : Env)
    (entries : List (List Nat × List Nat)) (rf : Bool) (s : EngineState) :
    corpusGrows s (loadShard env entries rf s) := by
  unfold loadShard
  exact corpusGrows_trans (loadShardFold_corpusGrows env rf entries (s, []))
    (rerun_corpusGrows env _ _)

/-- The dispatch loop consumes only the RNG draws `i, i+1, …` within its
fuel. -/
theorem applyOneOfAux_rng_window (fn : List MutFn) (rng rng' : Nat → Nat) :
    ∀ (fuel i : Nat) (data : List Nat),
      (∀ j, j < i + fuel → rng j = rng' j) →
      applyOneOfAux fn rng i fuel data = applyOneOfAux fn rng' i fuel data := by
  intro fuel
  induction fuel with
  | zero => intro i data _; rfl
  | succ fuel ih =>
    intro i data h
    rw [applyOneOfAux, applyOneOfAux, h i (by omega)]
    split
    · rfl
    · exact ih (i + 1) _ (fun j hj => h j (by omega))

/-- If every primitive the loop can draw fails, the loop returns false. -/
theorem applyOneOfAux_all_fail (fn : List MutFn) (rng : Nat → Nat)
    (hall : ∀ (d : List Nat) (j : Nat),
      ((fn.getD (rng j % fn.length) (fun x => (false, x))) d).1 = false) :
    ∀ (fuel i : Nat) (data : List Nat),
      (applyOneOfAux fn rng i fuel data).1 = false := by
  intro fuel
  induction fuel with
  | zero => intro i data; rfl
  | succ fuel ih =>
    intro i data
    rw [applyOneOfAux]
    rw [hall data i]
    simp only [Bool.false_eq_true, if_false]
    exact ih (i + 1) _

/-- A success on the very first draw returns that primitive's output. -/
theorem applyOneOf_first_success (knobs : List Nat) (fn : List MutFn)
    (rng : Nat → Nat) (data : List Nat)
    (h : ((fn.getD (rng 0 % fn.length) (fun x => (false, x))) data).1 = true) :
    applyOneOf knobs fn rng data
      = (true, ((fn.getD (rng 0 % fn.length) (fun x => (false, x))) data).2) := by
  show applyOneOfAux fn rng 0 (9 + 1) data = _
  rw [applyOneOfAux]
  rw [h]
  simp

end Centipede

/-- C3: for shard count `N > 1`, own index `my < N` and any RNG value `r`, the
peer shard index equals `(my + 1 + (r mod (N-1))) mod N` and never equals
`my`. -/
theorem c3_peer_shard_selection (totalShards myShardIndex r : Nat)
    (hN : 1 < totalShards) (hmy : myShardIndex < totalShards) :
    Centipede.chooseOtherShard myShardIndex totalShards r
        = (myShardIndex + 1 + r % (totalShards - 1)) % totalShards ∧
      Centipede.chooseOtherShard myShardIndex totalShards r ≠ myShardIndex :=
  ⟨rfl, Centipede.chooseOtherShard_ne totalShards myShardIndex r hN hmy⟩

/-- C3 witness: the spec's worked example, `my = 3`, `N = 5`, RNG value 2,
yields shard 1, which differs from 3. -/
theorem c3_peer_shard_selection_witness :
    Centipede.chooseOtherShard 3 5 2 = 1 ∧
      Centipede.chooseOtherShard 3 5 2 ≠ 3 :=
  ⟨by decide, (c3_peer_shard_selection 5 3 2 (by decide) (by decide)).2⟩

/-- C6: `set_size_alignment a` returns `false` and leaves the alignment
unchanged when `max_len` is finite and `max_len % a ≠ 0`; `set_max_len m`
returns `false` and leaves `max_len` unchanged when the finite `m` is not a
multiple of the current alignment; in all other cases each setter stores the
new value and returns `true`. -/
theorem c6_size_setters (s : Centipede.MutatorSizeState) (a m : Nat) :
    (s.max_len ≠ Centipede.sizeTMax → s.max_len % a ≠ 0 →
        Centipede.set_size_alignment s a = (false, s)) ∧
      (m ≠ Centipede.sizeTMax → m % s.size_alignment ≠ 0 →
        Centipede.set_max_len s m = (false, s)) ∧
      (s.max_len = Centipede.sizeTMax ∨ s.max_len % a = 0 →
        Centipede.set_size_alignment s a
          = (true, { s with size_alignment := a })) ∧
      (m = Centipede.sizeTMax ∨ m % s.size_alignment = 0 →
        Centipede.set_max_len s m = (true, { s with max_len := m })) := by
  refine ⟨fun h1 h2 => ?_, fun h1 h2 => ?_, fun h => ?_, fun h => ?_⟩
  · simp [Centipede.set_size_alignment, h1, h2]
  · simp [Centipede.set_max_len, h1, h2]
  · rcases h with h | h <;> simp [Centipede.set_size_alignment, h]
  · rcases h with h | h <;> simp [Centipede.set_max_len, h]

/-- C9: for contents `x`, `y` of at most 15 bytes, `DictEntry::operator<`
(memcmp over the zero-padded byte buffer followed by the size byte) orders `x`
before `y` exactly when `x`'s content is lexicographically smaller than `y`'s,
or the contents agree up to the shorter length and `x` is shorter. -/
theorem c9_dict_entry_order (x y : List Nat)
    (hx : x.length ≤ 15) (hy : y.length ≤ 15) :
    Centipede.dictEntryLt x y = Centipede.specContentLt x y := by
  have := Centipede.memcmp_padded_eq_specContentLt x y 15 0 hx hy
  simpa [Centipede.dictEntryLt, Centipede.dictEntryBytes,
    Centipede.kMaxEntrySize] using this

/-- C10: for an input that gained new coverage and passed the input filter,
the function-filter outcome gates only the in-memory corpus addition: the
frequency increments, the corpus-file append, the features-file append and the
`corpus_dir` mirror all happen whatever the function filter said. -/
theorem c10_function_filter_gates_only_corpus (env : Centipede.Env)
    (hc hf hu : Bool) (s : Centipede.EngineState) (input fv cmpArgs : List Nat)
    (hg : (Centipede.gradedFeatures env s.freq fv).1 = true)
    (hif : env.inputFilter input = true) :
    (Centipede.gradeOneInput env hc hf hu s input fv cmpArgs).2.freq
        = Centipede.incrementFrequencies s.freq
            (Centipede.gradedFeatures env s.freq fv).2 ∧
      (Centipede.gradeOneInput env hc hf hu s input fv cmpArgs).2.corpusFileAppends
        = (if hc then s.corpusFileAppends ++ [input] else s.corpusFileAppends) ∧
      (Centipede.gradeOneInput env hc hf hu s input fv cmpArgs).2.featuresFileAppends
        = (if hf then s.featuresFileAppends
              ++ [(input, (Centipede.gradedFeatures env s.freq fv).2)]
            else s.featuresFileAppends) ∧
      (Centipede.gradeOneInput env hc hf hu s input fv cmpArgs).2.corpusDirWrites
        = (if env.corpusDirNonempty then s.corpusDirWrites ++ [input]
            else s.corpusDirWrites) ∧
      (Centipede.gradeOneInput env hc hf hu s input fv cmpArgs).2.corpus
        = (if env.functionFilter fv then
              s.corpus ++ [⟨input, (Centipede.gradedFeatures env s.freq fv).2, cmpArgs⟩]
            else s.corpus) := by
  rw [Centipede.gradeOneInput_fields]
  simp [hg, hif]

/-- C10 witness: a concrete input that gained coverage and passed the input
filter, graded under an environment whose function filter rejects everything:
frequencies are bumped and all three write paths fire, while the corpus stays
empty. -/
theorem c10_function_filter_gates_only_corpus_witness :
    (Centipede.gradeOneInput Centipede.sampleEnvNoFF true true false
          Centipede.initEngineState [7] [3] []).2.corpusFileAppends = [[7]] ∧
      (Centipede.gradeOneInput Centipede.sampleEnvNoFF true true false
          Centipede.initEngineState [7] [3] []).2.featuresFileAppends
        = [([7], [3])] ∧
      (Centipede.gradeOneInput Centipede.sampleEnvNoFF true true false
          Centipede.initEngineState [7] [3] []).2.corpusDirWrites = [[7]] ∧
      (Centipede.gradeOneInput Centipede.sampleEnvNoFF true true false
          Centipede.initEngineState [7] [3] []).2.corpus = [] := by
  obtain ⟨h1, h2, h3, h4, h5⟩ := c10_function_filter_gates_only_corpus
    Centipede.sampleEnvNoFF true true false Centipede.initEngineState
    [7] [3] [] rfl rfl
  refine ⟨?_, ?_, ?_, ?_⟩
  · rw [h2]; rfl
  · rw [h3]; rfl
  · rw [h4]; rfl
  · rw [h5]; rfl

/-- C1 (amended): in the batch-grading and shard-loading admission paths,
every record appended to the in-memory corpus carries at least one feature
whose frequency was zero in the feature set when the admission decision was
made.  (The third path — seeding an empty corpus with the dummy valid input —
is excluded: it admits a record whose feature vector is empty.) -/
theorem c1_admission_has_unseen_feature :
    (∀ (env : Centipede.Env) (hc hf hu : Bool) (s : Centipede.EngineState)
        (input fv cmpArgs : List Nat),
        (Centipede.gradeOneInput env hc hf hu s input fv cmpArgs).2.corpus
            = s.corpus ∨
          ∃ r, (Centipede.gradeOneInput env hc hf hu s input fv cmpArgs).2.corpus
                = s.corpus ++ [r] ∧ ∃ f ∈ r.features, s.freq f = 0) ∧
      (∀ (env : Centipede.Env) (rerunFlag : Bool)
          (acc : Centipede.EngineState × List (List Nat))
          (entry : List Nat × List Nat),
        (Centipede.loadShardEntry env rerunFlag acc entry).1.corpus
            = acc.1.corpus ∨
          ∃ r, (Centipede.loadShardEntry env rerunFlag acc entry).1.corpus
                = acc.1.corpus ++ [r] ∧ ∃ f ∈ r.features, acc.1.freq f = 0) := by
  constructor
  · intro env hc hf hu s input fv cmpArgs
    rw [Centipede.gradeOneInput_fields]
    by_cases hcond : ((Centipede.gradedFeatures env s.freq fv).1
        && env.inputFilter input && env.functionFilter fv) = true
    · right
      obtain ⟨⟨hg, _⟩, _⟩ : ((Centipede.gradedFeatures env s.freq fv).1 = true
          ∧ env.inputFilter input = true) ∧ env.functionFilter fv = true := by
        simpa [Bool.and_eq_true] using hcond
      refine ⟨⟨input, (Centipede.gradedFeatures env s.freq fv).2, cmpArgs⟩, ?_,
        Centipede.gradedFeatures_gained_unseen env s.freq fv hg⟩
      simp [hcond]
    · left
      simp [hcond]
  · intro env rerunFlag acc entry
    unfold Centipede.loadShardEntry
    by_cases he : acc.1.earlyExit.isSome = true
    · left; simp [he]
    · by_cases hev : entry.2.isEmpty = true
      · left; simp [he, hev]
      · by_cases hr : (Centipede.countUnseenAndPruneFrequent acc.1.freq
            env.threshold entry.2).1 = true
        · right
          refine ⟨⟨entry.1, (Centipede.countUnseenAndPruneFrequent acc.1.freq
              env.threshold entry.2).2, []⟩, ?_,
            Centipede.countUnseen_exists_unseen acc.1.freq env.threshold
              entry.2 hr⟩
          simp [he, hev, hr]
        · left; simp [he, hev, hr]

/-- C1 counterexample: the dummy-valid-input seeding path
(`Centipede::FuzzingLoop`, centipede.cc:587-589) admits a record whose feature
vector is empty, so no feature of that record was unseen at admission. -/
theorem c1_counterexample :
    ¬ ∀ r ∈ (Centipede.seedWithDummyValidInput [42]
          Centipede.initEngineState).corpus,
        ∃ f ∈ r.features, Centipede.initEngineState.freq f = 0 := by
  intro h
  have hr : (⟨[42], [], []⟩ : Centipede.CorpusRecord)
      ∈ (Centipede.seedWithDummyValidInput [42]
          Centipede.initEngineState).corpus := by
    simp [Centipede.seedWithDummyValidInput, Centipede.initEngineState]
  obtain ⟨f, hf, _⟩ := h _ hr
  simp at hf

/-- C9 witness: concrete instances — `[1]` precedes `[1,0]` (shorter prefix
first), `[0,5]` follows `[0,0,5]`, and both agree with the spec order. -/
theorem c9_dict_entry_order_witness :
    Centipede.dictEntryLt [1] [1, 0] = Centipede.specContentLt [1] [1, 0] ∧
      Centipede.dictEntryLt [1] [1, 0] = true ∧
      Centipede.dictEntryLt [0, 5] [0, 0, 5]
        = Centipede.specContentLt [0, 5] [0, 0, 5] ∧
      Centipede.dictEntryLt [0, 5] [0, 0, 5] = false :=
  ⟨c9_dict_entry_order [1] [1, 0] (by decide) (by decide), by decide,
    c9_dict_entry_order [0, 5] [0, 0, 5] (by decide) (by decide), by decide⟩

/-- C6 witness: with the default alignment and `max_len = 100`,
`set_size_alignment 7` returns `false` and leaves the state unchanged
(100 mod 7 ≠ 0), while `set_size_alignment 5` succeeds. -/
theorem c6_size_setters_witness :
    Centipede.set_size_alignment ⟨1, 100⟩ 7 = (false, ⟨1, 100⟩) ∧
      Centipede.set_size_alignment ⟨1, 100⟩ 5 = (true, ⟨5, 100⟩) := by
  refine ⟨(c6_size_setters ⟨1, 100⟩ 7 0).1 (by decide) (by decide), ?_⟩
  exact (c6_size_setters ⟨1, 100⟩ 5 0).2.2.1 (Or.inr (by decide))

/-- C8: the number of crash reports never exceeds `max_num_crash_reports`: an
invocation with the counter at (or beyond) the cap returns immediately with no
state change and no reproduction attempt, and along any run of invocations the
report counter stays within the cap. -/
theorem c8_crash_report_cap :
    (∀ (env : Centipede.Env) (execOne : List Nat → Bool)
        (s : Centipede.EngineState) (inputs : List (List Nat)) (k : Nat),
        env.maxNumCrashReports ≤ s.numCrashReports →
          Centipede.reportCrash env execOne s inputs k = (s, none)) ∧
      (∀ (env : Centipede.Env)
          (events : List ((List Nat → Bool) × List (List Nat) × Nat))
          (s : Centipede.EngineState),
        s.numCrashReports ≤ env.maxNumCrashReports →
          (Centipede.reportCrashRun env events s).numCrashReports
            ≤ env.maxNumCrashReports) :=
  ⟨fun env eo s i k h => Centipede.reportCrash_suppressed env eo s i k h,
    fun env events s h => Centipede.reportCrashRun_counter_le env events s h⟩

/-- C8 witness: with the cap 5 already reached the call is a no-op, and six
consecutive crash reports starting from zero leave the counter at most 5. -/
theorem c8_crash_report_cap_witness :
    Centipede.reportCrash Centipede.sampleEnvCrash (fun _ => true)
        { Centipede.initEngineState with numCrashReports := 5 } [[1]] 0
      = ({ Centipede.initEngineState with numCrashReports := 5 }, none) ∧
      (Centipede.reportCrashRun Centipede.sampleEnvCrash
          [(fun _ => true, [[1]], 0), (fun _ => true, [[1]], 0),
            (fun _ => true, [[1]], 0), (fun _ => true, [[1]], 0),
            (fun _ => true, [[1]], 0), (fun _ => true, [[1]], 0)]
          Centipede.initEngineState).numCrashReports
        ≤ Centipede.sampleEnvCrash.maxNumCrashReports :=
  ⟨c8_crash_report_cap.1 Centipede.sampleEnvCrash (fun _ => true)
      { Centipede.initEngineState with numCrashReports := 5 } [[1]] 0
      (by decide),
    c8_crash_report_cap.2 Centipede.sampleEnvCrash
      [(fun _ => true, [[1]], 0), (fun _ => true, [[1]], 0),
        (fun _ => true, [[1]], 0), (fun _ => true, [[1]], 0),
        (fun _ => true, [[1]], 0), (fun _ => true, [[1]], 0)]
      Centipede.initEngineState (by decide)⟩

/-- C5: on a failed batch (reports not yet capped), the try order puts the
suspect index `num_outputs_read` at the front while keeping it at its original
position in the sequence; the first input in that order whose single-input
execution fails is written to `crashes/<hash(input)>` and the search stops;
and if every tried input executes successfully, nothing is written and the
absence of a reproducer is reported (`none`). -/
theorem c5_crash_reproducer_search (env : Centipede.Env)
    (execOne : List Nat → Bool) (s : Centipede.EngineState)
    (inputs : List (List Nat)) (k : Nat)
    (hk : k < inputs.length)
    (hcap : s.numCrashReports < env.maxNumCrashReports) :
    Centipede.crashTryOrder inputs.length k = k :: List.range inputs.length ∧
      (List.range inputs.length).getD k 0 = k ∧
      (Centipede.reportCrash env execOne s inputs k).2
        = ((Centipede.crashTryOrder inputs.length k).map fun i =>
            inputs.getD i []).find? (fun x => ! execOne x) ∧
      (Centipede.reportCrash env execOne s inputs k).1.crashFiles
        = s.crashFiles
            ++ ((Centipede.reportCrash env execOne s inputs k).2).toList ∧
      ((∀ i ∈ Centipede.crashTryOrder inputs.length k,
          execOne (inputs.getD i []) = true) →
        (Centipede.reportCrash env execOne s inputs k).2 = none) := by
  obtain ⟨h2, h3, _⟩ := Centipede.reportCrash_active env execOne s inputs k hcap
  refine ⟨by simp [Centipede.crashTryOrder, hk], ?_, ?_, ?_, ?_⟩
  · rw [List.getD_eq_getElem?_getD, List.getElem?_range hk]
    rfl
  · rw [h2, Centipede.findReproducer_eq_find]
  · rw [h3, h2]
  · intro hall
    rw [h2, Centipede.findReproducer_eq_find]
    refine List.find?_eq_none.mpr ?_
    intro x hx
    obtain ⟨i, hi, rfl⟩ := List.mem_map.mp hx
    simpa using hall i hi

/-- C5 witness: three inputs with suspect index 1; the try order is
`[1, 0, 1, 2]` (suspect first, original position kept), the suspect `[2]`
fails first and is the file written. -/
theorem c5_crash_reproducer_search_witness :
    Centipede.crashTryOrder 3 1 = [1, 0, 1, 2] ∧
      (Centipede.reportCrash Centipede.sampleEnvCrash
          Centipede.sampleEnvCrash.primary.execOne Centipede.initEngineState
          [[1], [2], [3]] 1).2 = some [2] ∧
      (Centipede.reportCrash Centipede.sampleEnvCrash
          Centipede.sampleEnvCrash.primary.execOne Centipede.initEngineState
          [[1], [2], [3]] 1).1.crashFiles = [[2]] := by
  obtain ⟨h1, hpos, h3, h4, h5⟩ := c5_crash_reproducer_search
    Centipede.sampleEnvCrash Centipede.sampleEnvCrash.primary.execOne
    Centipede.initEngineState [[1], [2], [3]] 1 (by decide) (by decide)
  refine ⟨by decide, ?_, ?_⟩
  · rw [h3]; rfl
  · rw [h4, h3]; rfl

/-- C7: if any execution of the batch fails (primary or any extra binary) and
`exit_on_crash` is set, `RunBatch` requests early exit with exit code 1 and
returns false without grading any input: the feature set, the corpus, all file
appends and the run counter are untouched. -/
theorem c7_exit_on_crash_skips_grading (env : Centipede.Env)
    (inputs : List (List Nat)) (hc hf hu : Bool) (s : Centipede.EngineState)
    (hfail : (env.primary.execBatch inputs).1 = false ∨
      ∃ b ∈ env.extras, (b.execBatch inputs).1 = false)
    (hexit : env.exitOnCrash = true) :
    (Centipede.runBatch env inputs hc hf hu s).1 = false ∧
      (Centipede.runBatch env inputs hc hf hu s).2.earlyExit = some 1 ∧
      (Centipede.runBatch env inputs hc hf hu s).2.freq = s.freq ∧
      (Centipede.runBatch env inputs hc hf hu s).2.corpus = s.corpus ∧
      (Centipede.runBatch env inputs hc hf hu s).2.corpusFileAppends
        = s.corpusFileAppends ∧
      (Centipede.runBatch env inputs hc hf hu s).2.featuresFileAppends
        = s.featuresFileAppends ∧
      (Centipede.runBatch env inputs hc hf hu s).2.uncondFeaturesFileAppends
        = s.uncondFeaturesFileAppends ∧
      (Centipede.runBatch env inputs hc hf hu s).2.corpusDirWrites
        = s.corpusDirWrites ∧
      (Centipede.runBatch env inputs hc hf hu s).2.numRuns = s.numRuns := by
  have hsuccess : ((env.primary.execBatch inputs).1
      && env.extras.all fun b => (b.execBatch inputs).1) = false := by
    rcases hfail with h | ⟨b, hb, hbf⟩
    · rw [h, Bool.false_and]
    · cases hall : env.extras.all fun b => (b.execBatch inputs).1 with
      | false => rw [Bool.and_false]
      | true => exact absurd (List.all_eq_true.mp hall b hb) (by simp [hbf])
  obtain ⟨h1, h2, h3, h4, h5, h6, h7, h8⟩ :=
    Centipede.runBatchPreState_gradingFrame env inputs s
  have hrb : Centipede.runBatch env inputs hc hf hu s
      = (false, { Centipede.runBatchPreState env inputs s with
          earlyExit := some 1 }) := by
    simp only [Centipede.runBatch, hsuccess, hexit, Bool.not_false,
      Bool.and_self, if_true]
  rw [hrb]
  exact ⟨rfl, rfl, h1, h2, h3, h4, h5, h6, h7⟩

/-- C7 witness: a primary binary that always fails with `exit_on_crash` set —
the batch returns false, the exit code 1 is requested, and the corpus and run
counter stay untouched. -/
theorem c7_exit_on_crash_skips_grading_witness :
    (Centipede.runBatch Centipede.sampleEnvCrash [[1], [2]] true true false
        Centipede.initEngineState).1 = false ∧
      (Centipede.runBatch Centipede.sampleEnvCrash [[1], [2]] true true false
          Centipede.initEngineState).2.earlyExit = some 1 ∧
      (Centipede.runBatch Centipede.sampleEnvCrash [[1], [2]] true true false
          Centipede.initEngineState).2.corpus = [] ∧
      (Centipede.runBatch Centipede.sampleEnvCrash [[1], [2]] true true false
          Centipede.initEngineState).2.numRuns = 0 := by
  obtain ⟨h1, h2, _, h4, _, _, _, _, h9⟩ := c7_exit_on_crash_skips_grading
    Centipede.sampleEnvCrash [[1], [2]] true true false
    Centipede.initEngineState (Or.inl rfl) rfl
  exact ⟨h1, h2, h4, h9⟩

/-- C4: `LoadShard` never shrinks the corpus — it only appends records (no
pruning happens on that path) — and consequently the corpus size after
`MergeFromOtherCorpus` loads the other-workdir shard is at least the size
before, so the `CHECK_GE` non-shrink assertion always holds. -/
theorem c4_load_shard_never_shrinks :
    (∀ (env : Centipede.Env) (entries : List (List Nat × List Nat))
        (rerunFlag : Bool) (s : Centipede.EngineState),
        ∃ l, (Centipede.loadShard env entries rerunFlag s).corpus
          = s.corpus ++ l) ∧
      (∀ (env : Centipede.Env) (entries : List (List Nat × List Nat))
          (rerunFlag : Bool) (s : Centipede.EngineState),
        s.corpus.length
          ≤ (Centipede.loadShard env entries rerunFlag s).corpus.length) ∧
      (∀ (env : Centipede.Env) (entries : List (List Nat × List Nat))
          (s : Centipede.EngineState),
        (Centipede.mergeFromOtherCorpus env entries s).2 = true) := by
  refine ⟨fun env entries rf s =>
      Centipede.loadShard_corpusGrows env entries rf s, ?_, ?_⟩
  · intro env entries rf s
    obtain ⟨l, hl⟩ := Centipede.loadShard_corpusGrows env entries rf s
    rw [hl]
    simp
  · intro env entries s
    obtain ⟨l, hl⟩ := Centipede.loadShard_corpusGrows env entries true s
    unfold Centipede.mergeFromOtherCorpus
    dsimp only
    rw [hl]
    simp

/-- C2 (amended): the family dispatcher draws each primitive index uniformly
as `rng() % kArraySize`, independently of the knobs; it retries when the
chosen primitive returns false, drawing at most 10 primitives in the round
(only the first 10 RNG values can matter); a success returns immediately with
that primitive's output; and if every drawable primitive fails, the round
returns false. -/
theorem c2_apply_one_of (fn : List Centipede.MutFn) (rng rng' : Nat → Nat)
    (knobs knobs' : List Nat) (data : List Nat) :
    Centipede.applyOneOf knobs fn rng data
        = Centipede.applyOneOf knobs' fn rng data ∧
      ((∀ j, j < 10 → rng j = rng' j) →
        Centipede.applyOneOf knobs fn rng data
          = Centipede.applyOneOf knobs fn rng' data) ∧
      ((∀ (d : List Nat) (j : Nat),
          ((fn.getD (rng j % fn.length) (fun x => (false, x))) d).1 = false) →
        (Centipede.applyOneOf knobs fn rng data).1 = false) ∧
      (((fn.getD (rng 0 % fn.length) (fun x => (false, x))) data).1 = true →
        Centipede.applyOneOf knobs fn rng data
          = (true,
              ((fn.getD (rng 0 % fn.length) (fun x => (false, x))) data).2)) := by
  refine ⟨rfl, ?_, ?_, ?_⟩
  · intro h
    exact Centipede.applyOneOfAux_rng_window fn rng rng' 10 0 data
      (fun j hj => h j (by omega))
  · intro h
    exact Centipede.applyOneOfAux_all_fail fn rng h 10 0 data
  · exact Centipede.applyOneOf_first_success knobs fn rng data

/-- C2 witness: the dispatcher result does not change when the knobs change;
a round over a single always-failing primitive returns false; and a successful
first draw returns that primitive's mutant. -/
theorem c2_apply_one_of_witness :
    Centipede.applyOneOf [0, 1] [fun d => (true, d)] (fun _ => 0) [5]
        = Centipede.applyOneOf [9, 9] [fun d => (true, d)] (fun _ => 0) [5] ∧
      (Centipede.applyOneOf [3] [fun d => (false, d)] (fun _ => 0) [5]).1
        = false ∧
      Centipede.applyOneOf [3] [fun d => (true, 0 :: d)] (fun _ => 0) [5]
        = (true, [0, 5]) :=
  ⟨(c2_apply_one_of [fun d => (true, d)] (fun _ => 0) (fun _ => 0)
      [0, 1] [9, 9] [5]).1,
    (c2_apply_one_of [fun d => (false, d)] (fun _ => 0) (fun _ => 0)
      [3] [3] [5]).2.2.1 (fun d j => rfl),
    (c2_apply_one_of [fun d => (true, 0 :: d)] (fun _ => 0) (fun _ => 0)
      [3] [3] [5]).2.2.2 rfl⟩

/-- C2 counterexample: with knob weights `[0, 1]` a knobs-weighted draw always
selects primitive 1, yet the dispatcher applies primitive 0 (it computes
`rng() % kArraySize` and never consults the knobs), producing a different
mutant — so the selection is not according to knobs-weighted probabilities. -/
theorem c2_counterexample :
    Centipede.applyOneOf [0, 1]
        [fun _ => (true, [0]), fun _ => (true, [1])] (fun _ => 0) [5]
      = (true, [0]) ∧
      Centipede.knobsWeightedIndex [0, 1] 0 = 1 ∧
      ([fun _ => ((true : Bool), [(0 : Nat)]), fun _ => (true, [1])].getD
          (Centipede.knobsWeightedIndex [0, 1] 0) (fun d => (false, d))) [5]
        = (true, [1]) ∧
      ((true, [(0 : Nat)]) : Bool × List Nat) ≠ (true, [1]) := by
  refine ⟨by decide, by decide, by decide, by decide⟩
